import Mathlib

/-! Shallow embedding of the palashjain867/SystemDesign repository: the
tic-tac-toe engine of src/TicTakToe/game.cpp and the log aggregation
utility of src/LoggerClass/logger.cpp.

Conventions.  C++ strings become String (player names) or List Char (log
lines); machine ints used as indices become Nat; an out-of-range access of
a std::vector through operator[] and control flow that falls off the end
of a non-void function are undefined behavior, embedded as none.  The
source is kept as written, including its defects; the only repairs are
compile-level slips where the written text has no meaning at all, each one
noted in the doc comment of the definition it touches. -/

namespace TTT

/-- cell::isEmpty from game.cpp: a cell is empty when its stored value is
the space character.  A cell also stores the x and y coordinates it was
created with, which never influence behavior, so a cell is embedded as its
value field alone. -/
def isEmpty (c : Char) : Bool := c == ' '

/-- grid[i][j].getValue(): reading one cell of a grid.  The win evaluator
only reads indices that lie inside a well formed grid; reads outside
default to the empty cell value. -/
def getValue (grid : List (List Char)) (i j : Nat) : Char :=
  (((grid.get? i).getD []).get? j).getD ' '

/-- Board from game.cpp: the size field and the grid of cells. -/
structure Board where
  size : Nat
  grid : List (List Char)
deriving DecidableEq

/-- Board::Board(int psize): loops i and j over [0, psize) storing
cell(i, j) at grid[i][j]; every cell starts with the space value.  (The
source writes into a default-constructed vector it never sizes, a
compile-level slip; the evident psize by psize grid is embedded.) -/
def mkBoard (n : Nat) : Board :=
  ⟨n, List.replicate n (List.replicate n ' ')⟩

/-- Board::MarkCell(row, col, symbol): no bounds check is performed, so an
out-of-range access of grid[row][col] is undefined behavior, embedded as
none.  The occupancy test in the source reads grid[i][j] with undeclared
names i and j (a compile-level slip), embedded at the target cell
(row, col).  When the cell is empty the symbol is written and true
returned, otherwise false; the possibly updated board is returned
alongside the bool result. -/
def MarkCell (b : Board) (row col : Nat) (symbol : Char) : Option (Board × Bool) :=
  match b.grid.get? row with
  | none => none
  | some r =>
    match r.get? col with
    | none => none
    | some v =>
      if isEmpty v then some (⟨b.size, b.grid.set row (r.set col symbol)⟩, true)
      else some (b, false)

/-- Board::isFull: the outer loop over the rows returns true at the end of
its first iteration, so only row 0 is ever inspected; on an empty grid the
function falls off the end without returning a value (undefined behavior,
embedded as none). -/
def isFull (b : Board) : Option Bool :=
  match b.grid with
  | [] => none
  | r :: _ => if r.any (fun c => isEmpty c) then some false else some true

/-- Inner j loop of GameRules::isWinningMove; fuel counts the remaining
iterations (the loop runs j from 0 while j < size).  Faithful to the
source text: the mismatch test on the column cell grid[j][i] clears rowWin
a second time instead of colWin, and the early return fires as soon as
rowWin or colWin holds, inside the loop body. -/
def rcLoopJ (grid : List (List Char)) (s : Char) (i : Nat) :
    Nat → Nat → Bool → Bool → Bool
  | 0, _, _, _ => false
  | fuel + 1, j, rowWin, colWin =>
    let rw1 := if getValue grid i j ≠ s then false else rowWin
    let rw2 := if getValue grid j i ≠ s then false else rw1
    if rw2 || colWin then true
    else rcLoopJ grid s i fuel (j + 1) rw2 colWin

/-- Outer i loop of GameRules::isWinningMove: for each i the flags restart
as rowWin = true and colWin = true and the inner loop runs; when the inner
loop returns the evaluator returns true, otherwise the next i is tried. -/
def rcLoopI (grid : List (List Char)) (s : Char) (size : Nat) : Nat → Nat → Bool
  | 0, _ => false
  | fuel + 1, i =>
    if rcLoopJ grid s i size 0 true true then true
    else rcLoopI grid s size fuel (i + 1)

/-- GameRules::isWinningMove: the row and column pass with its early
return, then the diagonal pass over grid[k][k] and grid[k][size-1-k].
(The source clears ntiDiag at one spot, an evident slip for antiDiag.) -/
def isWinningMove (b : Board) (s : Char) : Bool :=
  let grid := b.grid
  let size := grid.length
  if rcLoopI grid s size size 0 then true
  else
    (List.range size).all (fun k => getValue grid k k == s)
      || (List.range size).all (fun k => getValue grid k (size - 1 - k) == s)

/-- Modelled from the spec: the win predicate as section 4.2 of the design
words it — true iff some row, some column, the main diagonal or the anti
diagonal is fully occupied by the symbol.  Declared only to compare the
source win evaluator against it. -/
def specEvaluateWin (b : Board) (s : Char) : Bool :=
  let n := b.size
  (List.range n).any (fun i => (List.range n).all (fun j => getValue b.grid i j == s))
    || (List.range n).any (fun j => (List.range n).all (fun i => getValue b.grid i j == s))
    || (List.range n).all (fun i => getValue b.grid i i == s)
    || (List.range n).all (fun i => getValue b.grid i (n - 1 - i) == s)

/-- player from game.cpp: a name and a symbol. -/
structure PlayerT where
  name : String
  symbol : Char
deriving DecidableEq

/-- Whether the Game::play loop is still running, or has exited through
the win break or through the draw break.  The source stores no explicit
game state; the exit the loop takes is the observable outcome. -/
inductive GStatus
  | Running
  | WonExit
  | DrawExit
deriving DecidableEq

/-- Game from game.cpp: the two players, the currentPlayer pointer
(embedded as a flag that is true when currentPlayer points at p1), the
board, and the loop status. -/
structure Game where
  p1 : PlayerT
  p2 : PlayerT
  current : Bool
  board : Board
  status : GStatus
deriving DecidableEq

/-- Game::Game(a, b, boardSize): stores the players, builds the board and
points currentPlayer at p1.  No validation of the size or of the symbols
is performed.  (The source writes currentPlayer(&p1) in the body, a
compile-level slip for the evident assignment.) -/
def mkGame (a b : PlayerT) (boardSize : Nat) : Game :=
  ⟨a, b, true, mkBoard boardSize, GStatus.Running⟩

/-- The player the currentPlayer pointer selects. -/
def currentPlayer (g : Game) : PlayerT :=
  if g.current then g.p1 else g.p2

/-- Game::switchTurn: currentPlayer = (currentPlayer == &p1) ? &p2 : &p1. -/
def switchTurn (g : Game) : Game :=
  { g with current := if g.current then false else true }

/-- One iteration of the Game::play loop body on the request (row, col):
mark the cell (a false result just continues the loop with everything
unchanged), then the win check, then the draw check, and otherwise
switchTurn.  Once the loop has exited (status not Running) a request is
not consumed and nothing changes.  Undefined behavior inside the body —
the unchecked vector access of MarkCell, isFull on an empty grid —
propagates as none. -/
def playStep (g : Game) (row col : Nat) : Option Game :=
  match g.status with
  | GStatus.WonExit => some g
  | GStatus.DrawExit => some g
  | GStatus.Running =>
    match MarkCell g.board row col (currentPlayer g).symbol with
    | none => none
    | some (b, false) => some { g with board := b }
    | some (b, true) =>
      if isWinningMove b (currentPlayer g).symbol then
        some { g with board := b, status := GStatus.WonExit }
      else
        match isFull b with
        | none => none
        | some true => some { g with board := b, status := GStatus.DrawExit }
        | some false => some (switchTurn { g with board := b })

/-- The play loop over a list of requests. -/
def playMoves (g : Game) : List (Nat × Nat) → Option Game
  | [] => some g
  | (r, c) :: ms =>
    match playStep g r c with
    | none => none
    | some g1 => playMoves g1 ms

/-- Player X of the scenarios in the spec. -/
def pX : PlayerT := ⟨"X", 'X'⟩

/-- Player O of the scenarios in the spec. -/
def pO : PlayerT := ⟨"O", 'O'⟩

/-- The game reached from a fresh 3 by 3 session after the single request
(0, 0): the defective win evaluator declares a win at once. -/
def gWon : Game :=
  ⟨pX, pO, true, ⟨3, [['X', ' ', ' '], [' ', ' ', ' '], [' ', ' ', ' ']]⟩, GStatus.WonExit⟩

/-- A board whose first row is full while the cell (1, 0) is empty. -/
def rowFullBoard : Board :=
  ⟨3, [['X', 'X', 'X'], [' ', 'X', 'X'], ['X', 'X', 'X']]⟩

end TTT

namespace LoggerApp

/-- The characters of the literal Error that logParser::parseError
searches for. -/
def errLit : List Char := ['E', 'r', 'r', 'o', 'r']

/-- line.find(pat) != string::npos: pat occurs in the line as a contiguous
substring. -/
def hasSubstr (pat : List Char) : List Char → Bool
  | [] => pat.isEmpty
  | c :: rest => pat.isPrefixOf (c :: rest) || hasSubstr pat rest

/-- logParser::parseError: the line itself when it contains Error, the
empty string otherwise. -/
def parseError (line : List Char) : List Char :=
  if hasSubstr errLit line then line else []

/-- errorAggregator::addError: errorcount[errorMsg]++ on the hash map,
embedded as a total count function where an absent key counts zero. -/
def addError (m : List Char → Nat) (msg : List Char) : List Char → Nat :=
  fun k => if k = msg then m k + 1 else m k

/-- The loop in main of logger.cpp: every line read is parsed and the
result — including the empty string that parseError produces for a line
without Error — is handed to addError. -/
def processLines (lines : List (List Char)) : List Char → Nat :=
  lines.foldl (fun m line => addError m (parseError line)) (fun _ => 0)

/-- A line containing Error, used to instantiate the aggregation theorem. -/
def errLine : List Char := ['E', 'r', 'r', 'o', 'r', 'A']

/-- A concrete input: two equal Error lines around one ordinary line. -/
def c8Lines : List (List Char) := [errLine, ['h', 'i'], errLine]

end LoggerApp

namespace TTT

/-- Setting an index of a list to the value it already holds leaves the
list unchanged. -/
theorem set_same {α : Type} :
    ∀ (l : List α) (i : Nat) (a : α), l.get? i = some a → l.set i a = l
  | [], _, _, h => by simp at h
  | x :: xs, 0, a, h => by
    rw [List.get?_cons_zero] at h
    injection h with h
    subst h
    rfl
  | x :: xs, i + 1, a, h => by
    rw [List.get?_cons_succ] at h
    simp [List.set, set_same xs i a h]

/-- A list with a successful index read is not empty. -/
theorem get?_ne_nil {α : Type} (l : List α) (i : Nat) (a : α)
    (h : l.get? i = some a) : l ≠ [] := by
  intro hn
  subst hn
  simp at h

/-- The early return of the inner loop of isWinningMove fires on its first
iteration whenever colWin is true, whatever the cells hold: the source
never clears colWin. -/
theorem rcLoopJ_colwin (grid : List (List Char)) (s : Char) (i fuel j : Nat)
    (rw : Bool) : rcLoopJ grid s i (fuel + 1) j rw true = true := by
  simp [rcLoopJ]

/-- GameRules::isWinningMove returns true on every board with at least one
row, for every symbol: colWin starts true, is never cleared (the column
mismatch clears rowWin instead), and the early-return test rowWin or
colWin therefore succeeds at the first cell of the first row. -/
theorem win_always (b : Board) (s : Char) (h : b.grid ≠ []) :
    isWinningMove b s = true := by
  obtain ⟨bsize, grid⟩ := b
  cases grid with
  | nil => exact absurd rfl h
  | cons r rest =>
    simp [isWinningMove, rcLoopI, rcLoopJ_colwin]

end TTT

namespace TTT

/-- A board returned by a successful MarkCell has a nonempty grid: the
read of grid[row] succeeded, and set preserves the length. -/
theorem MarkCell_grid_ne_nil (b : Board) (row col : Nat) (s : Char)
    (b' : Board) (ok : Bool) (hm : MarkCell b row col s = some (b', ok)) :
    b'.grid ≠ [] := by
  unfold MarkCell at hm
  split at hm
  · exact absurd hm (by simp)
  next r hrow =>
    have hb : b.grid ≠ [] := get?_ne_nil b.grid row r hrow
    split at hm
    · exact absurd hm (by simp)
    next v hcol =>
      split at hm
      · injection hm with hm
        injection hm with hm1 hm2
        rw [← hm1]
        simp [hb]
      · injection hm with hm
        injection hm with hm1 hm2
        rw [← hm1]
        exact hb

/-- Claim C1: the claim states that isWinningMove is true iff a row, a
column, the main diagonal or the anti diagonal is fully occupied by the
symbol, with the row flag and the column flag tracked independently.  The
code refutes it: on the empty 3 by 3 board, which has no line of X at all,
the evaluator already answers true, because the never-cleared colWin flag
makes the early-return test succeed at cell (0, 0); the spec-side win
predicate answers false there. -/
theorem c1_win_evaluator_defect :
    isWinningMove (mkBoard 3) 'X' = true ∧ specEvaluateWin (mkBoard 3) 'X' = false := by
  constructor
  · exact win_always (mkBoard 3) 'X' (by decide)
  · decide

/-- Claim C2: the claim states that Board::isFull is true iff every cell
of the whole grid is occupied.  The code refutes it: on a board whose
first row is full of symbols while the cell (1, 0) is empty, isFull
returns true, because the outer loop returns at the end of its first
iteration and never inspects the later rows. -/
theorem c2_isFull_first_row_defect :
    isFull rowFullBoard = some true ∧ isEmpty (getValue rowFullBoard.grid 1 0) = true := by
  constructor
  · rfl
  · rfl

/-- Claim C3: the claim states that Board::MarkCell rejects an
out-of-range (row, col) with an OutOfBounds error and never aborts on
malformed input.  The code refutes it: MarkCell performs no bounds check,
so the request (3, 0) on a 3 by 3 board reads grid[3] out of range —
undefined behavior (embedded as none), not an ordinary error value; even
in-range rejections only ever return the bool false, never a typed
error. -/
theorem c3_MarkCell_unchecked_bounds :
    MarkCell (mkBoard 3) 3 0 'X' = none := by
  rfl

/-- Claim C6: the claim states that constructing a session fails with
InvalidConfiguration when the board size is below one or the two players
share a symbol.  The code refutes it: the Game constructor validates
nothing; with board size 0 and both players carrying the symbol X it still
produces a session, in the Running state, holding the duplicate
symbols. -/
theorem c6_no_config_validation :
    (mkGame ⟨"A", 'X'⟩ ⟨"B", 'X'⟩ 0).status = GStatus.Running ∧
      (mkGame ⟨"A", 'X'⟩ ⟨"B", 'X'⟩ 0).p1.symbol
        = (mkGame ⟨"A", 'X'⟩ ⟨"B", 'X'⟩ 0).p2.symbol := by
  exact ⟨rfl, rfl⟩

/-- Claim C9: Game::switchTurn is an involution: applied twice it restores
the game exactly; applied once it flips the currentPlayer pointer from the
one player to the other and mutates nothing else — players, board and
status are untouched. -/
theorem c9_switchTurn_involution (g : Game) :
    switchTurn (switchTurn g) = g ∧
      (switchTurn g).current = !g.current ∧
      (switchTurn g).p1 = g.p1 ∧ (switchTurn g).p2 = g.p2 ∧
      (switchTurn g).board = g.board ∧ (switchTurn g).status = g.status := by
  obtain ⟨a, b, c, bd, st⟩ := g
  cases c <;> simp [switchTurn]

end TTT

namespace TTT

/-- Claim C5 (code versus claim): under the play loop no processed request
ever changes the currentPlayer pointer.  A rejected mark leaves it alone;
a successful mark is always followed by a true win check — win_always —
so the loop breaks before switchTurn can run.  The strict alternation the
claim describes therefore never takes place. -/
theorem c5_turn_never_switches (g : Game) (row col : Nat) (g' : Game)
    (h : playStep g row col = some g') : g'.current = g.current := by
  unfold playStep at h
  split at h
  · injection h with h
    rw [← h]
  · injection h with h
    rw [← h]
  · split at h
    · exact absurd h (by simp)
    · next b1 hm =>
        injection h with h
        rw [← h]
    · next b1 hm =>
        have hw := win_always b1 (currentPlayer g).symbol
          (MarkCell_grid_ne_nil g.board row col (currentPlayer g).symbol b1 true hm)
        rw [hw] at h
        simp at h
        rw [← h]

/-- Claim C5, witness: the concrete first move (0, 0) of a fresh 3 by 3
session is processed — it ends in the state gWon — and the current player
is still player one. -/
theorem c5_turn_never_switches_witness : gWon.current = (mkGame pX pO 3).current :=
  c5_turn_never_switches (mkGame pX pO 3) 0 0 gWon (by decide)

/-- Claim C4, as amended: the status only ever leaves Running, and a
terminal status is absorbing — a request submitted once the loop has
exited returns the session unchanged: board, status and current player
are all untouched.  No GameOver error is produced, because the source
defines no error values at all; the unprocessed request yields the same
ordinary result as any other. -/
theorem c4_terminal_absorbing (g : Game) (row col : Nat) (g' : Game)
    (h : playStep g row col = some g') :
    (g.status ≠ GStatus.Running → g' = g) ∧
      (g'.status ≠ g.status → g.status = GStatus.Running ∧ g'.status ≠ GStatus.Running) := by
  unfold playStep at h
  split at h
  · injection h with h
    subst h
    exact ⟨fun _ => rfl, fun hne => absurd rfl hne⟩
  · injection h with h
    subst h
    exact ⟨fun _ => rfl, fun hne => absurd rfl hne⟩
  · next hs =>
      refine ⟨fun hne => absurd hs hne, fun hne => ⟨hs, ?_⟩⟩
      rw [hs] at hne
      exact hne

/-- Claim C4, counterexample to the claim as stated: in the terminal state
gWon the further request (1, 1) does not fail with GameOver — the embedded
loop has no error channel at all — it returns the unchanged session as an
ordinary result. -/
theorem c4_gameover_missing_cex :
    gWon.status = GStatus.WonExit ∧ playStep gWon 1 1 = some gWon :=
  ⟨rfl, rfl⟩

/-- Claim C4, witness: the amended theorem applied to the concrete
terminal session gWon and the request (1, 1). -/
theorem c4_terminal_absorbing_witness :
    gWon = gWon ∧ gWon.status = GStatus.WonExit :=
  ⟨(c4_terminal_absorbing gWon 1 1 gWon rfl).1 (by decide), rfl⟩

/-- One processed play step never produces the draw exit from a non-draw
state: a successful mark always satisfies the defective win check first,
so the isFull branch is dead code. -/
theorem playStep_no_draw (g : Game) (row col : Nat) (g' : Game)
    (hg : g.status ≠ GStatus.DrawExit) (h : playStep g row col = some g') :
    g'.status ≠ GStatus.DrawExit := by
  unfold playStep at h
  split at h
  · next hs =>
      injection h with h
      rw [← h, hs]
      decide
  · next hs => exact absurd hs hg
  · split at h
    · exact absurd h (by simp)
    · next b1 hm =>
        injection h with h
        rw [← h]
        exact hg
    · next b1 hm =>
        have hw := win_always b1 (currentPlayer g).symbol
          (MarkCell_grid_ne_nil g.board row col (currentPlayer g).symbol b1 true hm)
        rw [hw] at h
        simp at h
        rw [← h]
        simp

/-- Claim C7 (code versus claim): along every request sequence from every
session not already in the draw exit, the draw exit is unreachable — the
defective win evaluator answers true after every successful placement, so
the play loop always breaks through the win branch first.  The spec draw
scenario (a filled board with no winner) can never end in Draw. -/
theorem c7_draw_unreachable :
    ∀ (ms : List (Nat × Nat)) (g : Game), g.status ≠ GStatus.DrawExit →
      ∀ (g' : Game), playMoves g ms = some g' → g'.status ≠ GStatus.DrawExit := by
  intro ms
  induction ms with
  | nil =>
    intro g hg g' h
    unfold playMoves at h
    injection h with h
    rw [← h]
    exact hg
  | cons rc ms ih =>
    intro g hg g' h
    obtain ⟨r, c⟩ := rc
    unfold playMoves at h
    split at h
    · exact absurd h (by simp)
    · next g1 hp =>
        exact ih g1 (playStep_no_draw g r c g1 hg hp) g' h

/-- Claim C7, witness: the concrete one-request sequence [(0, 0)] from a
fresh 3 by 3 session reaches gWon, whose status is not the draw exit. -/
theorem c7_draw_unreachable_witness : gWon.status ≠ GStatus.DrawExit :=
  c7_draw_unreachable [(0, 0)] (mkGame pX pO 3) (by decide) gWon (by decide)

/-- Claim C10: a cell is empty exactly when it holds the space character,
so marking an empty in-range cell with the space symbol succeeds (returns
true) yet hands back the very same board: the cell still reads as empty,
can be marked again, and contributes to isFull exactly as before.  A
player whose symbol is the space character can therefore never occupy a
cell. -/
theorem c10_space_symbol (b : Board) (row col : Nat) (r : List Char) (v : Char)
    (hrow : b.grid.get? row = some r) (hcol : r.get? col = some v)
    (hv : isEmpty v = true) :
    MarkCell b row col ' ' = some (b, true) ∧
      isEmpty (getValue b.grid row col) = true := by
  have hv' : v = ' ' := by
    have hb := hv
    simp [isEmpty] at hb
    exact hb
  subst hv'
  constructor
  · simp only [MarkCell, hrow, hcol, isEmpty, beq_self_eq_true, if_true]
    rw [set_same r col ' ' hcol, set_same b.grid row r hrow]
  · simp only [getValue]
    rw [hrow]
    simp only [Option.getD_some]
    rw [hcol]
    simp [isEmpty]

/-- Claim C10, witness: on a fresh 2 by 2 board the space mark at (0, 0)
succeeds and returns the identical board. -/
theorem c10_space_symbol_witness :
    MarkCell (mkBoard 2) 0 0 ' ' = some (mkBoard 2, true) :=
  (c10_space_symbol (mkBoard 2) 0 0 (List.replicate 2 ' ') ' ' rfl rfl rfl).1

end TTT

namespace LoggerApp

/-- A line that contains Error is returned unchanged by parseError. -/
theorem parseError_pos {L : List Char} (h : hasSubstr errLit L = true) :
    parseError L = L := by
  simp [parseError, h]

/-- A line that does not contain Error is turned into the empty string by
parseError. -/
theorem parseError_neg {L : List Char} (h : hasSubstr errLit L = false) :
    parseError L = [] := by
  simp [parseError, h]

/-- Unrolling the aggregation fold of main: the final count of a key is
its multiplicity among the parsed lines, on top of whatever the
accumulator already held. -/
theorem processLines_aux (lines : List (List Char)) (m : List Char → Nat)
    (key : List Char) :
    lines.foldl (fun m line => addError m (parseError line)) m key
      = m key + (lines.map parseError).count key := by
  induction lines generalizing m with
  | nil => simp
  | cons L ls ih =>
    simp only [List.foldl_cons, List.map_cons]
    rw [ih, List.count_cons]
    simp only [addError]
    by_cases hk : key = parseError L
    · have hb : (parseError L == key) = true := by
        rw [hk]
        simp
      rw [if_pos hk, hb]
      simp
      omega
    · have hb : (parseError L == key) = false := by
        simp only [beq_eq_false_iff_ne]
        exact fun hx => hk hx.symm
      rw [if_neg hk, hb]
      simp

/-- The aggregated count of a key equals its multiplicity among the
parsed lines. -/
theorem processLines_eq_count (lines : List (List Char)) (key : List Char) :
    processLines lines key = (lines.map parseError).count key := by
  unfold processLines
  rw [processLines_aux]
  simp

/-- For a key that contains Error, parsing is the identity on the lines
that can produce it, so its multiplicity among the parsed lines equals
its multiplicity among the raw lines. -/
theorem count_map_parse (key : List Char) (h : hasSubstr errLit key = true) :
    ∀ lines : List (List Char),
      (lines.map parseError).count key = lines.count key
  | [] => by simp
  | L :: ls => by
    simp only [List.map_cons]
    rw [List.count_cons, List.count_cons, count_map_parse key h ls]
    congr 1
    by_cases hL : L = key
    · subst hL
      rw [parseError_pos h]
    · by_cases hE : hasSubstr errLit L = true
      · rw [parseError_pos hE]
      · have hE' : hasSubstr errLit L = false := by simpa using hE
        rw [parseError_neg hE']
        have h1 : (([] : List Char) == key) = false := by
          simp only [beq_eq_false_iff_ne]
          intro hk
          rw [← hk] at h
          exact absurd h (by decide)
        have h2 : ((L : List Char) == key) = false := by
          simp only [beq_eq_false_iff_ne]
          exact hL
        rw [h1, h2]

/-- Claim C8, as amended: a key carries a positive aggregated count iff it
is an input line containing Error, or it is the empty string and some
input line does not contain Error — main hands the empty string that
parseError produces for every non-Error line to the aggregator as well;
and the count of each Error-containing key equals the number of input
lines equal to it. -/
theorem c8_error_count_amended (lines : List (List Char)) (key : List Char) :
    (0 < processLines lines key ↔
      ((hasSubstr errLit key = true ∧ key ∈ lines)
        ∨ (key = [] ∧ ∃ L, L ∈ lines ∧ hasSubstr errLit L = false)))
    ∧ (hasSubstr errLit key = true → processLines lines key = lines.count key) := by
  constructor
  · rw [processLines_eq_count, List.count_pos_iff, List.mem_map]
    constructor
    · rintro ⟨L, hL, hpe⟩
      by_cases hE : hasSubstr errLit L = true
      · left
        rw [parseError_pos hE] at hpe
        subst hpe
        exact ⟨hE, hL⟩
      · right
        have hE' : hasSubstr errLit L = false := by simpa using hE
        rw [parseError_neg hE'] at hpe
        exact ⟨hpe.symm, L, hL, hE'⟩
    · rintro (⟨hk, hmem⟩ | ⟨hk, L, hL, hLf⟩)
      · exact ⟨key, hmem, parseError_pos hk⟩
      · refine ⟨L, hL, ?_⟩
        rw [parseError_neg hLf, hk]
  · intro hk
    rw [processLines_eq_count, count_map_parse key hk]

/-- Claim C8, counterexample to the claim as stated: on the single input
line hi, the aggregate carries the positive count one at the empty-string
key, which is not a line containing Error (and is not even an input
line); by the claim no key at all should be positive. -/
theorem c8_empty_key_counterexample :
    0 < processLines [['h', 'i']] [] ∧ hasSubstr errLit [] = false := by
  constructor
  · decide
  · rfl

/-- Claim C8, witness: the amended theorem applied to the concrete input
c8Lines and the Error-containing key errLine, whose count is its
multiplicity two. -/
theorem c8_error_count_witness :
    processLines c8Lines errLine = c8Lines.count errLine :=
  (c8_error_count_amended c8Lines errLine).2 (by decide)

end LoggerApp
